import Mathlib

/-!
Verification of the pixel-upload pipeline in `upload_pbo.cpp`
(opengl-texture-streaming).

The development shallowly embeds the byte-level frame handling of
`test_4` / `test_5`, the two shader programs (`YUVShader`,
`YUVBlockShader`), the quad geometry of `OpenGLContext::reserve`, the
aspect-ratio computation of the two render functions, and the GL call
sequence of `Shader::compile`.  Byte arrays are modelled as functions
`Nat → Nat` (flat index to byte value); `GLfloat` arithmetic is
modelled exactly over `ℚ` (every comparison and result appearing in a
theorem below is exact at the rational level and representable at
`float` precision, so the branch outcomes agree with the C++ code).
-/

/-! ## Frame geometry (test_4 / test_5)

In the source: `size = w*h` (single plane), `yuvsize = (3*size)/2`
(all planes), chroma planes allocated with `size/4` bytes and chroma
textures created at `w/2 × h/2`. -/

/-- `yuvsize = (3*size)/2` with `size = w*h`, from `test_4`/`test_5`. -/
def yuvsize (w h : Nat) : Nat := (3 * (w * h)) / 2

/-- Byte count of one chroma plane as allocated in the source:
`u_image = new GLubyte[size/4]` with `size = w*h`. -/
def chromaPlaneBytes (w h : Nat) : Nat := (w * h) / 4

/-- Geometric area of a chroma texture as created in the source:
`glTexImage2D(..., w/2, h/2, ...)`. -/
def chromaTexArea (w h : Nat) : Nat := (w / 2) * (h / 2)

/-- The planar byte-count formula of the spec:
luma plane plus two subsampled chroma planes. -/
def planarByteCount (w h : Nat) : Nat := w * h + 2 * ((w / 2) * (h / 2))

/-- Frame-dimension validation.  Modelled from the spec: `uploadFrame`
fails with `SizeMismatchError` for frames whose dimensions are odd
("reject odd dimensions with `SizeMismatchError`"); `upload_pbo.cpp`
only ever exercises the even dimensions 1280×720 and contains no such
validation, so the rejection branch is taken from the spec text. -/
inductive UploadError where
  | SizeMismatchError
deriving DecidableEq

/-- Modelled from the spec: dimension validation of `uploadFrame` /
`initializePipeline`; accepts exactly the even-by-even frames. -/
def validateFrameDims (w h : Nat) : Option UploadError :=
  if w % 2 = 0 ∧ h % 2 = 0 then none else some UploadError.SizeMismatchError

/-! ## Plane splitting (test_4)

From the source:
`memcpy(y_image, image,              size  );`
`memcpy(u_image, &image[size],       size/4);`
`memcpy(v_image, &image[(5*size)/4], size/4);`
followed by `memcpy(y_payload, y_image, size)` etc., so the staging
buffer of each plane reads the raw frame at these offsets. -/

def y_plane_of (image : Nat → Nat) : Nat → Nat := fun k => image k

def u_plane_of (image : Nat → Nat) (size : Nat) : Nat → Nat := fun k => image (size + k)

def v_plane_of (image : Nat → Nat) (size : Nat) : Nat → Nat := fun k => image ((5 * size) / 4 + k)

/-! ## Packed-block repacking (test_5)

From the source: `stridesize = w*4` (one BGRA line) and the
interleaving loop

```
for(i=0;i<h;i++) {
  for(j=0;j<stridesize;j=j+4) {
    dummypayload[i*(stridesize)+j  ] =y_image[i*w    +j/4];     // b
    dummypayload[i*(stridesize)+j+1] =u_image[(i/2)*(w/2)+j/8]; // g
    dummypayload[i*(stridesize)+j+2] =v_image[(i/2)*(w/2)+j/8]; // r
    dummypayload[i*(stridesize)+j+3] =255;                      // a
  }
}
```

Byte buffers are functions `Nat → Nat`; one body iteration is the
four-fold pointwise update `interleave_px` (the four target indices
are pairwise distinct, so the if-chain agrees with the sequential
stores), the inner loop runs `j = 4*t` for `t < w` (as
`stridesize = 4*w`), and the outer loop runs over the rows. -/

def stridesize (w : Nat) : Nat := w * 4

def interleave_px (w : Nat) (y u v : Nat → Nat) (i j : Nat) (buf : Nat → Nat) : Nat → Nat :=
  fun k =>
    if k = i * stridesize w + j then y (i * w + j / 4)
    else if k = i * stridesize w + j + 1 then u (i / 2 * (w / 2) + j / 8)
    else if k = i * stridesize w + j + 2 then v (i / 2 * (w / 2) + j / 8)
    else if k = i * stridesize w + j + 3 then 255
    else buf k

def interleave_row (w : Nat) (y u v : Nat → Nat) (i : Nat) (buf : Nat → Nat) : Nat → Nat :=
  (List.range w).foldl (fun b t => interleave_px w y u v i (4 * t) b) buf

def interleave (w h : Nat) (y u v : Nat → Nat) (buf : Nat → Nat) : Nat → Nat :=
  (List.range h).foldl (fun b i => interleave_row w y u v i b) buf

/-- One 4-byte texel of the packed texture, read back per the fixed
convention of `test_5`: the texture is created with `GL_BGRA` /
`GL_UNSIGNED_INT_8_8_8_8_REV`, so byte 0 of a pixel is channel `.b`,
byte 1 is `.g`, byte 2 is `.r` and byte 3 is `.a`. -/
structure BGRATexel where
  b : Nat
  g : Nat
  r : Nat
  a : Nat
deriving DecidableEq

/-- The texel of the packed buffer at luma row `i`, luma column `m`
(rows are `stridesize w = 4*w` bytes, pixels 4 bytes). -/
def texelAt (buf : Nat → Nat) (w i m : Nat) : BGRATexel :=
  ⟨buf (i * stridesize w + 4 * m), buf (i * stridesize w + 4 * m + 1),
   buf (i * stridesize w + 4 * m + 2), buf (i * stridesize w + 4 * m + 3)⟩

/-- Channel extraction of `YUVBlockShader::fragment_shader`:
`yuv.x = texture(texBlock, tcoord).b; yuv.y = ....g; yuv.z = ....r`. -/
def get_yuv_from_texel (t : BGRATexel) : Nat × Nat × Nat := (t.b, t.g, t.r)

/-! ## Fragment-stage YUV→RGB conversion

Transcribed from the two embedded GLSL sources
(`YUVShader::fragment_shader`, `YUVBlockShader::fragment_shader`);
GLSL `float` arithmetic is modelled over `ℚ`. -/

/-- GLSL `clamp(x, lo, hi) = min(max(x, lo), hi)`. -/
def glslClamp (x lo hi : ℚ) : ℚ := min (max x lo) hi

structure Vec3 where
  x : ℚ
  y : ℚ
  z : ℚ

/-- GLSL `dot` on 3-vectors. -/
def glslDot (a b : Vec3) : ℚ := a.x * b.x + a.y * b.y + a.z * b.z

/-- `yuv2rgb` of `YUVShader::fragment_shader`:
`yuv = clamp(yuv, 0.0, 1.0); yuv += offset;` then one dot product per
output channel with `Rcoeff`, `Gcoeff`, `Bcoeff`. -/
def YUVShader_yuv2rgb (yuv : Vec3) : Vec3 :=
  let offset : Vec3 := ⟨-0.0625, -0.5, -0.5⟩
  let Rcoeff : Vec3 := ⟨1.164, 0, 1.596⟩
  let Gcoeff : Vec3 := ⟨1.164, -0.391, -0.813⟩
  let Bcoeff : Vec3 := ⟨1.164, 2.018, 0⟩
  let c : Vec3 := ⟨glslClamp yuv.x 0 1, glslClamp yuv.y 0 1, glslClamp yuv.z 0 1⟩
  let s : Vec3 := ⟨c.x + offset.x, c.y + offset.y, c.z + offset.z⟩
  ⟨glslDot s Rcoeff, glslDot s Gcoeff, glslDot s Bcoeff⟩

/-- `yuv2rgb` of `YUVBlockShader::fragment_shader` (transcribed from
its own copy of the GLSL source). -/
def YUVBlockShader_yuv2rgb (yuv : Vec3) : Vec3 :=
  let offset : Vec3 := ⟨-0.0625, -0.5, -0.5⟩
  let Rcoeff : Vec3 := ⟨1.164, 0, 1.596⟩
  let Gcoeff : Vec3 := ⟨1.164, -0.391, -0.813⟩
  let Bcoeff : Vec3 := ⟨1.164, 2.018, 0⟩
  let c : Vec3 := ⟨glslClamp yuv.x 0 1, glslClamp yuv.y 0 1, glslClamp yuv.z 0 1⟩
  let s : Vec3 := ⟨c.x + offset.x, c.y + offset.y, c.z + offset.z⟩
  ⟨glslDot s Rcoeff, glslDot s Gcoeff, glslDot s Bcoeff⟩

/-! ## Aspect-ratio transform (renderYUVShader / renderYUVBlockShader)

From the source (identical in both render functions):
`r=float(wa.height*(1920)) / float(wa.width*(1080));` followed by the
three-way branch on `r<1.` / `r>1.` assigning `dx`, `dy`.  Note the
hard-coded constants 1920 and 1080. -/

def renderRatioQ (winW winH : Nat) : ℚ := (winH * 1920 : ℚ) / (winW * 1080)

def computeDxDy (winW winH : Nat) : ℚ × ℚ :=
  let r := renderRatioQ winW winH
  if r < 1 then (r, 1)
  else if 1 < r then (1, 1 / r)
  else (1, 1)

/-- Modelled from the spec: `computeTransform(surfaceWidth,
surfaceHeight, sourceWidth, sourceHeight)`, the letterbox transform
driven by the *actual* source dimensions; used only to compare the
hard-coded computation of the source against the spec's contract. -/
def specLetterbox (surfW surfH srcW srcH : Nat) : ℚ × ℚ :=
  let r : ℚ := (surfH * srcW : ℚ) / (surfW * srcH)
  if r < 1 then (r, 1)
  else if 1 < r then (1, 1 / r)
  else (1, 1)

/-! ## Quad geometry (OpenGLContext::reserve) and the vertex stage -/

/-- The vertex buffer uploaded by `OpenGLContext::reserve`: four
vertices, position (x, y, z) interleaved with texture coordinate
(u, v), in source order Top Right, Bottom Right, Bottom Left,
Top Left. -/
def vertices : List ((ℚ × ℚ × ℚ) × (ℚ × ℚ)) :=
  [((1, 1, 0), (1, 1)),
   ((1, -1, 0), (1, 0)),
   ((-1, -1, 0), (0, 0)),
   ((-1, 1, 0), (0, 1))]

/-- Texture-coordinate output of `YUVShader::vertex_shader`:
`TexCoord = vec2(texcoord.x, 1.0 - texcoord.y);`. -/
def YUVShader_texCoordOut (tc : ℚ × ℚ) : ℚ × ℚ := (tc.1, 1 - tc.2)

/-- Texture-coordinate output of `YUVBlockShader::vertex_shader`
(identical line in its own GLSL source). -/
def YUVBlockShader_texCoordOut (tc : ℚ × ℚ) : ℚ × ℚ := (tc.1, 1 - tc.2)

/-! ## Per-frame render step (renderYUVShader / renderYUVBlockShader)

The render functions read the window size, compute `(dx, dy)`, store
them into elements 0 and 5 of the member `transform` array, upload
that matrix as the `transform` uniform and issue the draw call.  Their
bodies contain no texture-writing call (`glTexSubImage2D` appears only
in the upload paths of the tests), so texture contents pass through a
render step unchanged; the step function returns the new transform
array (also the uploaded uniform value) and the texture contents. -/

def renderYUVShader_step (winW winH : Nat) (tr : Fin 16 → ℚ)
    (texY texU texV : Nat → Nat) :
    (Fin 16 → ℚ) × ((Nat → Nat) × (Nat → Nat) × (Nat → Nat)) :=
  let d := computeDxDy winW winH
  (Function.update (Function.update tr 0 d.1) 5 d.2, (texY, texU, texV))

def renderYUVBlockShader_step (winW winH : Nat) (tr : Fin 16 → ℚ)
    (texBlockContents : Nat → Nat) : (Fin 16 → ℚ) × (Nat → Nat) :=
  let d := computeDxDy winW winH
  (Function.update (Function.update tr 0 d.1) 5 d.2, texBlockContents)

/-! ## Shader compilation call sequence (Shader::compile)

`Shader::compile` is a sequence of GL calls whose control flow depends
only on the three success flags the driver reports (vertex compile,
fragment compile, link).  The embedding records the call trace as a
list of operations, abstracting the driver as `GLEnv` (success flags,
info logs, handles returned by the create calls); `printLogOp` stands
for the `std::cout << infoLog` in each failure branch. -/

structure GLEnv where
  vertexCompileOk : Bool
  fragmentCompileOk : Bool
  linkOk : Bool
  vertexLog : String
  fragmentLog : String
  linkLog : String
  vertexId : Nat
  fragmentId : Nat
  programId : Nat
deriving DecidableEq

inductive GLOp where
  | createShaderOp (kind : Nat) (id : Nat)
  | shaderSourceOp (id : Nat)
  | compileShaderOp (id : Nat)
  | printLogOp (log : String)
  | createProgramOp (id : Nat)
  | attachShaderOp (prog id : Nat)
  | linkProgramOp (prog : Nat)
  | getUniformLocationOp (prog : Nat) (name : String)
  | deleteShaderOp (id : Nat)
  | useProgramOp (prog : Nat)
deriving DecidableEq

/-- Call trace of `Shader::compile` plus the final value of
`this->program`.  Mirrors the source line by line: compile each stage,
print the info log on failure, then unconditionally create the
program, attach both shaders, link, print the link log on failure, and
delete the shaders.  There is no early exit. -/
def Shader_compile (env : GLEnv) : List GLOp × Nat :=
  ([GLOp.createShaderOp 0 env.vertexId, GLOp.shaderSourceOp env.vertexId,
    GLOp.compileShaderOp env.vertexId]
    ++ (if env.vertexCompileOk then [] else [GLOp.printLogOp env.vertexLog])
    ++ [GLOp.createShaderOp 1 env.fragmentId, GLOp.shaderSourceOp env.fragmentId,
        GLOp.compileShaderOp env.fragmentId]
    ++ (if env.fragmentCompileOk then [] else [GLOp.printLogOp env.fragmentLog])
    ++ [GLOp.createProgramOp env.programId,
        GLOp.attachShaderOp env.programId env.vertexId,
        GLOp.attachShaderOp env.programId env.fragmentId,
        GLOp.linkProgramOp env.programId]
    ++ (if env.linkOk then [] else [GLOp.printLogOp env.linkLog])
    ++ [GLOp.deleteShaderOp env.vertexId, GLOp.deleteShaderOp env.fragmentId],
   env.programId)

/-- Call trace of the `YUVShader` constructor:
`compile(); use(); findVars();` — `use` runs `glUseProgram` on the
program `compile` produced, unconditionally, and `findVars` then looks
up the uniforms on it. -/
def YUVShader_construct (env : GLEnv) : List GLOp × Nat :=
  ((Shader_compile env).1
    ++ [GLOp.useProgramOp (Shader_compile env).2,
        GLOp.getUniformLocationOp (Shader_compile env).2 "transform",
        GLOp.getUniformLocationOp (Shader_compile env).2 "texy",
        GLOp.getUniformLocationOp (Shader_compile env).2 "texu",
        GLOp.getUniformLocationOp (Shader_compile env).2 "texv"],
   (Shader_compile env).2)

/-- A driver environment in which the vertex stage fails to compile. -/
def envVertexFail : GLEnv :=
  ⟨false, true, true, "vertex compile diagnostic", "", "", 1, 2, 3⟩

/-! ## Staging buffer discipline

Modelled from the spec: the source's `getPBO` maps and immediately
unmaps its buffer and contains no guard at all, so the
`beginWrite`/`endWrite` contract of §4.2 (fail with `MapError` when
the buffer is already mapped or in-flight) is modelled from the spec
text and checked as a state machine. -/

inductive MapError where
  | MapError
deriving DecidableEq

structure StagingBuffer where
  byteCapacity : Nat
  mapped : Bool
  inFlight : Bool
deriving DecidableEq

/-- Modelled from the spec: `beginWrite` maps the buffer for CPU
writing and yields a writable region of `byteCapacity` bytes; it fails
with `MapError` if the buffer is already mapped or still in-flight. -/
def beginWrite (b : StagingBuffer) : Except MapError (StagingBuffer × Nat) :=
  if b.mapped || b.inFlight then Except.error MapError.MapError
  else Except.ok (StagingBuffer.mk b.byteCapacity true b.inFlight, b.byteCapacity)

/-- Modelled from the spec: `endWrite` releases the CPU mapping. -/
def endWrite (b : StagingBuffer) : StagingBuffer :=
  StagingBuffer.mk b.byteCapacity false b.inFlight

/-- A buffer that is currently mapped. -/
def mappedBuffer : StagingBuffer := StagingBuffer.mk 1382400 true false

/-- Claim C2: for even `(width, height)` the planar byte-count formula
`width*height + 2*(width/2)*(height/2)` equals `width*height*3/2`,
matching the code's `yuvsize = (3*size)/2` with `size = w*h` and the
chroma plane allocations of `size/4` bytes each; and odd dimensions
are rejected with `SizeMismatchError` (the rejection is modelled from
the spec, the source containing no validation). -/
theorem planar_byte_count_ok (w h : Nat) :
    (w % 2 = 0 → h % 2 = 0 →
      planarByteCount w h = yuvsize w h ∧
      chromaPlaneBytes w h = chromaTexArea w h ∧
      validateFrameDims w h = none) ∧
    (w % 2 = 1 ∨ h % 2 = 1 →
      validateFrameDims w h = some UploadError.SizeMismatchError) := by
  constructor
  · intro hw hh
    obtain ⟨a, rfl⟩ : ∃ a, w = 2 * a := ⟨w / 2, by omega⟩
    obtain ⟨b, rfl⟩ : ∃ b, h = 2 * b := ⟨h / 2, by omega⟩
    refine ⟨?_, ?_, ?_⟩
    · show 2 * a * (2 * b) + 2 * ((2 * a / 2) * (2 * b / 2)) = (3 * (2 * a * (2 * b))) / 2
      have ha : 2 * a / 2 = a := by omega
      have hb : 2 * b / 2 = b := by omega
      rw [ha, hb]
      have h1 : 2 * a * (2 * b) = 4 * (a * b) := by ring
      rw [h1]
      have h2 : 3 * (4 * (a * b)) = 12 * (a * b) := by ring
      rw [h2]
      omega
    · show 2 * a * (2 * b) / 4 = (2 * a / 2) * (2 * b / 2)
      have ha : 2 * a / 2 = a := by omega
      have hb : 2 * b / 2 = b := by omega
      rw [ha, hb]
      have h1 : 2 * a * (2 * b) = 4 * (a * b) := by ring
      rw [h1]
      omega
    · simp [validateFrameDims]
  · intro hodd
    have : ¬ (w % 2 = 0 ∧ h % 2 = 0) := by omega
    simp [validateFrameDims, this]

/-- Witness for `planar_byte_count_ok` at the frame size used by the
tests (1280×720) and at an odd size (3×3). -/
theorem planar_byte_count_ok_witness :
    planarByteCount 1280 720 = yuvsize 1280 720 ∧
    validateFrameDims 3 3 = some UploadError.SizeMismatchError :=
  ⟨((planar_byte_count_ok 1280 720).1 rfl rfl).1,
   (planar_byte_count_ok 3 3).2 (Or.inl rfl)⟩

/-- Claim C7: the multi-plane upload path of `test_4` splits a raw
planar frame of `width*height*3/2` bytes so that the Y staging region
is exactly bytes `[0, width*height)`, the U region is exactly
`[width*height, 5*width*height/4)` and the V region is exactly
`[5*width*height/4, 3*width*height/2)`: each chroma region is one
quarter of the luma size, and the three regions cover the whole input
without overlap (the boundary sums below, together with the coverage
disjunction, express exactly the partition of `[0, yuvsize)`). -/
theorem plane_split_ok (w h : Nat) (image : Nat → Nat)
    (hw : w % 2 = 0) (hh : h % 2 = 0) :
    (∀ k, k < w * h → y_plane_of image k = image (0 + k)) ∧
    (∀ k, k < (w * h) / 4 → u_plane_of image (w * h) k = image (w * h + k)) ∧
    (∀ k, k < (w * h) / 4 → v_plane_of image (w * h) k = image ((5 * (w * h)) / 4 + k)) ∧
    w * h + (w * h) / 4 = (5 * (w * h)) / 4 ∧
    (5 * (w * h)) / 4 + (w * h) / 4 = yuvsize w h ∧
    (∀ n, n < yuvsize w h →
      (n < w * h ∧ ¬(w * h ≤ n) ∧ ¬((5 * (w * h)) / 4 ≤ n)) ∨
      (w * h ≤ n ∧ n < (5 * (w * h)) / 4 ∧ ¬((5 * (w * h)) / 4 ≤ n ∧ n < yuvsize w h ∧ n < w * h)) ∨
      ((5 * (w * h)) / 4 ≤ n ∧ n < yuvsize w h ∧ ¬(n < (5 * (w * h)) / 4))) := by
  obtain ⟨a, rfl⟩ : ∃ a, w = 2 * a := ⟨w / 2, by omega⟩
  obtain ⟨b, rfl⟩ : ∃ b, h = 2 * b := ⟨h / 2, by omega⟩
  have hsz : 2 * a * (2 * b) = 4 * (a * b) := by ring
  refine ⟨fun k _ => by simp [y_plane_of], fun k _ => rfl, fun k _ => rfl, ?_, ?_, ?_⟩
  · rw [hsz]; have : 5 * (4 * (a * b)) = 20 * (a * b) := by ring
    rw [this]; omega
  · show (5 * (2 * a * (2 * b))) / 4 + (2 * a * (2 * b)) / 4 = (3 * (2 * a * (2 * b))) / 2
    rw [hsz]
    have h5 : 5 * (4 * (a * b)) = 20 * (a * b) := by ring
    have h3 : 3 * (4 * (a * b)) = 12 * (a * b) := by ring
    rw [h5, h3]; omega
  · intro n hn
    rw [hsz] at *
    unfold yuvsize at *
    have h5 : 5 * (4 * (a * b)) = 20 * (a * b) := by ring
    have h3 : 3 * (4 * (a * b)) = 12 * (a * b) := by ring
    rw [h5, h3] at *
    omega

/-- Witness for `plane_split_ok` at 1280×720: the U region starts at
byte 921600 and the V region at byte 1152000, ending at 1382400. -/
theorem plane_split_ok_witness :
    1280 * 720 + (1280 * 720) / 4 = (5 * (1280 * 720)) / 4 ∧
    (5 * (1280 * 720)) / 4 + (1280 * 720) / 4 = yuvsize 1280 720 := by
  have h := plane_split_ok 1280 720 (fun _ => 0) rfl rfl
  exact ⟨h.2.2.2.1, h.2.2.2.2.1⟩

/-- A body iteration of the `test_5` loop leaves every byte outside
its own 4-byte group unchanged. -/
theorem interleave_px_ne (w : Nat) (y u v : Nat → Nat) (i j : Nat) (b : Nat → Nat) (k : Nat)
    (h0 : k ≠ i * stridesize w + j) (h1 : k ≠ i * stridesize w + j + 1)
    (h2 : k ≠ i * stridesize w + j + 2) (h3 : k ≠ i * stridesize w + j + 3) :
    interleave_px w y u v i j b k = b k := by
  unfold interleave_px
  rw [if_neg h0, if_neg h1, if_neg h2, if_neg h3]

/-- On a byte of its own 4-byte group, a body iteration writes a value
that does not depend on the incoming buffer. -/
theorem interleave_px_indep (w : Nat) (y u v : Nat → Nat) (i j : Nat) (b b' : Nat → Nat) (k : Nat)
    (hlo : i * stridesize w + j ≤ k) (hhi : k < i * stridesize w + j + 4) :
    interleave_px w y u v i j b k = interleave_px w y u v i j b' k := by
  unfold interleave_px
  split_ifs <;> first | rfl | omega

/-- The inner loop leaves every byte outside row `i` of the packed
buffer unchanged. -/
theorem interleave_foldl_px_ne (w : Nat) (y u v : Nat → Nat) (i : Nat) (k : Nat)
    (hk : k < i * stridesize w ∨ i * stridesize w + stridesize w ≤ k) :
    ∀ (l : List Nat), (∀ t ∈ l, t < w) → ∀ b : Nat → Nat,
      (l.foldl (fun b t => interleave_px w y u v i (4 * t) b) b) k = b k := by
  intro l
  induction l with
  | nil => intro _ b; rfl
  | cons t l ih =>
    intro hl b
    simp only [List.foldl_cons]
    rw [ih (fun x hx => hl x (List.mem_cons_of_mem _ hx))]
    have ht : t < w := hl t (List.mem_cons_self _ _)
    apply interleave_px_ne <;> · simp only [stridesize] at hk ⊢; omega

theorem interleave_row_ne (w : Nat) (y u v : Nat → Nat) (i : Nat) (b : Nat → Nat) (k : Nat)
    (hk : k < i * stridesize w ∨ i * stridesize w + stridesize w ≤ k) :
    interleave_row w y u v i b k = b k :=
  interleave_foldl_px_ne w y u v i k hk (List.range w) (fun t ht => List.mem_range.mp ht) b

/-- On a byte of the group of luma column `m` of row `i`, the inner
loop produces exactly the value of the body iteration `j = 4*m`,
independently of the incoming buffer. -/
theorem interleave_foldl_px_target (w : Nat) (y u v : Nat → Nat) (i m : Nat) (k : Nat)
    (hm : m < w) (hlo : i * stridesize w + 4 * m ≤ k) (hhi : k < i * stridesize w + 4 * m + 4) :
    ∀ n, m < n → n ≤ w → ∀ b : Nat → Nat,
      ((List.range n).foldl (fun b t => interleave_px w y u v i (4 * t) b) b) k =
        interleave_px w y u v i (4 * m) (fun _ => 0) k := by
  intro n
  induction n with
  | zero => omega
  | succ n ih =>
    intro hmn hnw b
    rw [List.range_succ, List.foldl_append]
    simp only [List.foldl_cons, List.foldl_nil]
    by_cases hcase : m < n
    · rw [interleave_px_ne]
      · exact ih hcase (by omega) b
      all_goals simp only [stridesize] at hlo hhi ⊢; omega
    · have hmn' : m = n := by omega
      subst hmn'
      exact interleave_px_indep w y u v i (4 * m) _ _ k hlo hhi

theorem interleave_row_target (w : Nat) (y u v : Nat → Nat) (i m : Nat) (b : Nat → Nat) (k : Nat)
    (hm : m < w) (hlo : i * stridesize w + 4 * m ≤ k) (hhi : k < i * stridesize w + 4 * m + 4) :
    interleave_row w y u v i b k = interleave_px w y u v i (4 * m) (fun _ => 0) k :=
  interleave_foldl_px_target w y u v i m k hm hlo hhi w hm (le_refl w) b

/-- In the full double loop, the byte at index
`i * stridesize w + 4*m + c` (for `i < h`, `m < w`, `c < 4`) is the
value written by the body iteration `(i, j = 4*m)`. -/
theorem interleave_at (w h : Nat) (y u v : Nat → Nat) (i m : Nat) (k : Nat)
    (hi : i < h) (hm : m < w)
    (hlo : i * stridesize w + 4 * m ≤ k) (hhi : k < i * stridesize w + 4 * m + 4) :
    ∀ n, i < n → n ≤ h → ∀ b : Nat → Nat,
      ((List.range n).foldl (fun b r => interleave_row w y u v r b) b) k =
        interleave_px w y u v i (4 * m) (fun _ => 0) k := by
  intro n
  induction n with
  | zero => omega
  | succ n ih =>
    intro hin hnh b
    rw [List.range_succ, List.foldl_append]
    simp only [List.foldl_cons, List.foldl_nil]
    by_cases hcase : i < n
    · rw [interleave_row_ne]
      · exact ih hcase (by omega) b
      · left
        have hsucc : n * stridesize w = i * stridesize w + (n - i) * stridesize w := by
          rw [← Nat.add_mul]; congr 1; omega
        have hpos : stridesize w ≤ (n - i) * stridesize w :=
          Nat.le_mul_of_pos_left _ (by omega)
        simp only [stridesize] at hsucc hpos hlo hhi ⊢
        omega
    · have hin' : i = n := by omega
      subst hin'
      exact interleave_row_target w y u v i m _ k hm hlo hhi

/-- Claim C1: repacking a planar 4:2:0 frame with the `test_5`
interleaving loop and then extracting channels per the
`YUVBlockShader` convention (`.b`, `.g`, `.r` of the BGRA texel)
reproduces the original Y, U, V bytes at every luma coordinate
`(i, m)`, the chroma bytes coming from the co-located subsampled
plane entry at row `i/2`, column `m/2`; byte 3 of the texel is 255. -/
theorem packed_roundtrip (w h : Nat) (y u v : Nat → Nat) (buf : Nat → Nat) (i m : Nat)
    (hi : i < h) (hm : m < w) :
    get_yuv_from_texel (texelAt (interleave w h y u v buf) w i m) =
      (y (i * w + m), u (i / 2 * (w / 2) + m / 2), v (i / 2 * (w / 2) + m / 2)) ∧
    (texelAt (interleave w h y u v buf) w i m).a = 255 := by
  have base : ∀ c : Nat, c < 4 →
      interleave w h y u v buf (i * stridesize w + 4 * m + c) =
        interleave_px w y u v i (4 * m) (fun _ => 0) (i * stridesize w + 4 * m + c) := by
    intro c hc
    exact interleave_at w h y u v i m _ hi hm (by omega) (by omega) h hi (le_refl h) buf
  have hb := base 0 (by omega)
  have hg := base 1 (by omega)
  have hr := base 2 (by omega)
  have ha := base 3 (by omega)
  rw [Nat.add_zero] at hb
  have hy : interleave_px w y u v i (4 * m) (fun _ => 0) (i * stridesize w + 4 * m) =
      y (i * w + m) := by
    unfold interleave_px
    rw [if_pos rfl]
    congr 1
    omega
  have hu : interleave_px w y u v i (4 * m) (fun _ => 0) (i * stridesize w + 4 * m + 1) =
      u (i / 2 * (w / 2) + m / 2) := by
    unfold interleave_px
    rw [if_neg (by omega), if_pos rfl]
    congr 1
    omega
  have hv : interleave_px w y u v i (4 * m) (fun _ => 0) (i * stridesize w + 4 * m + 2) =
      v (i / 2 * (w / 2) + m / 2) := by
    unfold interleave_px
    rw [if_neg (by omega), if_neg (by omega), if_pos rfl]
    congr 1
    omega
  have hA : interleave_px w y u v i (4 * m) (fun _ => 0) (i * stridesize w + 4 * m + 3) =
      255 := by
    unfold interleave_px
    rw [if_neg (by omega), if_neg (by omega), if_neg (by omega), if_pos rfl]
  constructor
  · show (interleave w h y u v buf (i * stridesize w + 4 * m),
          interleave w h y u v buf (i * stridesize w + 4 * m + 1),
          interleave w h y u v buf (i * stridesize w + 4 * m + 2)) = _
    rw [hb, hg, hr, hy, hu, hv]
  · show interleave w h y u v buf (i * stridesize w + 4 * m + 3) = 255
    rw [ha, hA]

/-- Witness for `packed_roundtrip`: a concrete 4×2 frame with plane
bytes `100+k`, `200+k`, `300+k`; at luma coordinate `(1, 3)` the
extracted triple is `(y[7], u[1], v[1]) = (107, 201, 301)`. -/
theorem packed_roundtrip_witness :
    (1 < 2 ∧ 3 < 4) ∧
    get_yuv_from_texel
      (texelAt (interleave 4 2 (fun k => 100 + k) (fun k => 200 + k) (fun k => 300 + k)
        (fun _ => 0)) 4 1 3) = (107, 201, 301) := by
  have hrt := packed_roundtrip 4 2 (fun k => 100 + k) (fun k => 200 + k) (fun k => 300 + k)
    (fun _ => 0) 1 3 (by omega) (by omega)
  exact ⟨⟨by omega, by omega⟩, by simpa using hrt.1⟩

/-- Claim C3: the letterbox computation of the render functions.  For
window 800×600 the ratio is `4/3 > 1` and the scales are exactly
`(dx, dy) = (1, 3/4)`; for window 1920×1080 the ratio is `1` and both
scales are exactly `1`.  With source 1280×720 the claim's ratio
expression `(surfaceHeight*sourceWidth)/(surfaceWidth*sourceHeight)`
coincides with the ratio the code computes from its constants 1920 and
1080 at both windows (last two conjuncts), since 1280×720 is 16:9. -/
theorem aspect_instances_ok :
    renderRatioQ 800 600 = 4 / 3 ∧ (1 : ℚ) < 4 / 3 ∧
    computeDxDy 800 600 = (1, 3 / 4) ∧
    renderRatioQ 1920 1080 = 1 ∧
    computeDxDy 1920 1080 = (1, 1) ∧
    (600 * 1280 : ℚ) / (800 * 720) = renderRatioQ 800 600 ∧
    (1080 * 1280 : ℚ) / (1920 * 720) = renderRatioQ 1920 1080 := by
  have h1 : renderRatioQ 800 600 = 4 / 3 := by
    unfold renderRatioQ; norm_num
  have h2 : renderRatioQ 1920 1080 = 1 := by
    unfold renderRatioQ; norm_num
  refine ⟨h1, by norm_num, ?_, h2, ?_, ?_, ?_⟩
  · unfold computeDxDy
    rw [h1, if_neg (by norm_num), if_pos (by norm_num)]
    norm_num
  · unfold computeDxDy
    rw [h2, if_neg (by norm_num), if_neg (by norm_num)]
  · rw [h1]; norm_num
  · rw [h2]; norm_num

/-- Claim C5: the multi-plane and packed-block fragment shaders embed
extensionally equal `yuv2rgb` functions, both computing
`M * (clamp(yuv, 0, 1) + offset)` with offset `(-0.0625, -0.5, -0.5)`
and matrix rows `(1.164, 0, 1.596)`, `(1.164, -0.391, -0.813)`,
`(1.164, 2.018, 0)`. -/
theorem yuv2rgb_variants_equal (yuv : Vec3) :
    YUVShader_yuv2rgb yuv = YUVBlockShader_yuv2rgb yuv ∧
    YUVShader_yuv2rgb yuv =
      ⟨1.164 * (glslClamp yuv.x 0 1 + (-0.0625)) + 0 * (glslClamp yuv.y 0 1 + (-0.5)) +
         1.596 * (glslClamp yuv.z 0 1 + (-0.5)),
       1.164 * (glslClamp yuv.x 0 1 + (-0.0625)) + (-0.391) * (glslClamp yuv.y 0 1 + (-0.5)) +
         (-0.813) * (glslClamp yuv.z 0 1 + (-0.5)),
       1.164 * (glslClamp yuv.x 0 1 + (-0.0625)) + 2.018 * (glslClamp yuv.y 0 1 + (-0.5)) +
         0 * (glslClamp yuv.z 0 1 + (-0.5))⟩ := by
  refine ⟨rfl, ?_⟩
  simp only [YUVShader_yuv2rgb, glslDot, Vec3.mk.injEq]
  refine ⟨by ring, by ring, by ring⟩

/-- Counterexample to claim C6: the uploaded vertex buffer stores the
top-right texture coordinate `(1, 1)` unmodified (equal to the GL-side
corner coordinate, not one minus it), and the vertex shader does *not*
pass the stored coordinate through: it applies `v' = 1 - v` at render
time — the flip lives in the vertex shader, not in the uploaded
geometry. -/
theorem texcoord_flip_counterexample :
    (((1 : ℚ), (1 : ℚ), (0 : ℚ)), ((1 : ℚ), (1 : ℚ))) ∈ vertices ∧
    YUVShader_texCoordOut (1, 1) ≠ (1, 1) := by
  constructor
  · simp [vertices]
  · intro hEq
    have h2 := congrArg Prod.snd hEq
    simp only [YUVShader_texCoordOut] at h2
    norm_num at h2

/-- Claim C6 as amended: the vertex buffer uploaded by `reserve`
stores the *unflipped* corner texture coordinates (for every vertex,
`v = (position_y + 1)/2`), and the fixed, non-configurable flip
`v' = 1 - v` is applied per vertex in the vertex shader of both shader
variants at render time rather than being baked into the uploaded
geometry. -/
theorem texcoord_flip_in_shader (p : ℚ × ℚ × ℚ) (tc : ℚ × ℚ)
    (hmem : (p, tc) ∈ vertices) :
    tc.2 = (p.2.1 + 1) / 2 ∧
    YUVShader_texCoordOut tc = (tc.1, 1 - tc.2) ∧
    YUVBlockShader_texCoordOut tc = (tc.1, 1 - tc.2) := by
  refine ⟨?_, rfl, rfl⟩
  simp only [vertices, List.mem_cons, List.not_mem_nil, or_false, Prod.mk.injEq] at hmem
  rcases hmem with ⟨rfl, rfl⟩ | ⟨rfl, rfl⟩ | ⟨rfl, rfl⟩ | ⟨rfl, rfl⟩ <;> norm_num

/-- Witness for `texcoord_flip_in_shader` at the top-right vertex. -/
theorem texcoord_flip_in_shader_witness :
    (1 : ℚ) = ((1 : ℚ) + 1) / 2 ∧
    YUVShader_texCoordOut ((1 : ℚ), (1 : ℚ)) = (1, 1 - 1) := by
  have hc := texcoord_flip_in_shader ((1 : ℚ), (1 : ℚ), (0 : ℚ)) ((1 : ℚ), (1 : ℚ))
    (by simp [vertices])
  exact ⟨hc.1, hc.2.1⟩

/-- Counterexample to claim C4: with a driver environment in which the
vertex stage fails to compile, `Shader::compile` still prints the
diagnostic and then *continues* — the trace goes on to create, attach
and link the program, and the `YUVShader` constructor then calls
`glUseProgram` on the resulting handle.  Program creation does not
abort and no `CompileError` value exists anywhere in the source. -/
theorem compile_counterexample :
    envVertexFail.vertexCompileOk = false ∧
    GLOp.printLogOp "vertex compile diagnostic" ∈ (Shader_compile envVertexFail).1 ∧
    GLOp.linkProgramOp 3 ∈ (YUVShader_construct envVertexFail).1 ∧
    GLOp.useProgramOp 3 ∈ (YUVShader_construct envVertexFail).1 := by
  refine ⟨rfl, ?_, ?_, ?_⟩ <;> simp [YUVShader_construct, Shader_compile, envVertexFail]

/-- Claim C4 as amended: when either stage fails to compile or the
link fails, the diagnostic log is captured and printed (never silently
discarded), but creation does not abort: `Shader::compile`
unconditionally creates and links a program and stores its handle, and
the constructor then uses that handle. -/
theorem compile_logs_and_proceeds (env : GLEnv) :
    (env.vertexCompileOk = false → GLOp.printLogOp env.vertexLog ∈ (Shader_compile env).1) ∧
    (env.fragmentCompileOk = false → GLOp.printLogOp env.fragmentLog ∈ (Shader_compile env).1) ∧
    (env.linkOk = false → GLOp.printLogOp env.linkLog ∈ (Shader_compile env).1) ∧
    (Shader_compile env).2 = env.programId ∧
    GLOp.createProgramOp env.programId ∈ (Shader_compile env).1 ∧
    GLOp.linkProgramOp env.programId ∈ (Shader_compile env).1 ∧
    GLOp.useProgramOp env.programId ∈ (YUVShader_construct env).1 := by
  refine ⟨?_, ?_, ?_, rfl, ?_, ?_, ?_⟩ <;>
    first
    | (intro hfail; simp [Shader_compile, hfail])
    | simp [Shader_compile, YUVShader_construct]

/-- Witness for `compile_logs_and_proceeds` in the environment whose
vertex stage fails. -/
theorem compile_logs_and_proceeds_witness :
    GLOp.printLogOp "vertex compile diagnostic" ∈ (Shader_compile envVertexFail).1 ∧
    GLOp.useProgramOp 3 ∈ (YUVShader_construct envVertexFail).1 := by
  have hcp := compile_logs_and_proceeds envVertexFail
  exact ⟨hcp.1 rfl, hcp.2.2.2.2.2.2⟩

/-- Claim C8 (modelled from the spec): `beginWrite` on a buffer that
is already mapped (or in-flight) fails with `MapError`; a writable
region is only ever produced from an unmapped, not-in-flight buffer,
so a stale pointer is never returned. -/
theorem beginWrite_guard :
    (∀ b : StagingBuffer, b.mapped = true →
      beginWrite b = Except.error MapError.MapError) ∧
    (∀ (b : StagingBuffer) (r : StagingBuffer × Nat), beginWrite b = Except.ok r →
      b.mapped = false ∧ b.inFlight = false ∧ r.1.mapped = true ∧ r.2 = b.byteCapacity) := by
  constructor
  · intro b hm
    simp [beginWrite, hm]
  · intro b r h
    unfold beginWrite at h
    by_cases hc : (b.mapped || b.inFlight) = true
    · rw [if_pos hc] at h
      exact absurd h (by simp)
    · rw [if_neg hc] at h
      simp only [Bool.or_eq_true, not_or, Bool.not_eq_true] at hc
      cases h
      exact ⟨hc.1, hc.2, rfl, rfl⟩

/-- Witness for `beginWrite_guard` on a concrete mapped buffer. -/
theorem beginWrite_guard_witness :
    beginWrite mappedBuffer = Except.error MapError.MapError :=
  beginWrite_guard.1 mappedBuffer rfl

/-- Claim C9: a render call is idempotent with respect to the
displayed image.  Running a render step a second time with the same
window state and no intervening upload produces the same transform
uniform and the same texture contents as the first (for both shader
variants), and a render step never changes texture contents. -/
theorem render_idempotent (winW winH : Nat) (tr : Fin 16 → ℚ)
    (texY texU texV texB : Nat → Nat) :
    renderYUVShader_step winW winH (renderYUVShader_step winW winH tr texY texU texV).1
        texY texU texV = renderYUVShader_step winW winH tr texY texU texV ∧
    renderYUVBlockShader_step winW winH
        (renderYUVBlockShader_step winW winH tr texB).1 texB =
      renderYUVBlockShader_step winW winH tr texB ∧
    (renderYUVShader_step winW winH tr texY texU texV).2 = (texY, texU, texV) ∧
    (renderYUVBlockShader_step winW winH tr texB).2 = texB := by
  have key : ∀ (f : Fin 16 → ℚ) (a b : ℚ),
      Function.update (Function.update (Function.update (Function.update f 0 a) 5 b) 0 a) 5 b =
        Function.update (Function.update f 0 a) 5 b := by
    intro f a b
    funext k
    simp only [Function.update]
    split_ifs <;> rfl
  refine ⟨?_, ?_, rfl, rfl⟩
  · simp only [renderYUVShader_step]
    rw [Prod.mk.injEq]
    exact ⟨key tr _ _, rfl⟩
  · simp only [renderYUVBlockShader_step]
    rw [Prod.mk.injEq]
    exact ⟨key tr _ _, rfl⟩

/-- Claim C10 (implicit): both render paths compute the letterbox
ratio from the hard-coded constants 1920 and 1080 instead of the
actual source dimensions.  Consequently the computed scales agree with
the spec's `computeTransform` for *every* window exactly when the
source is 16:9 (first part), and for every source that is not 16:9
there is a window (its own size) at which the code's transform differs
from the spec's letterbox (second part); the tests' 1280×720 source is
16:9, which hides the discrepancy. -/
theorem hardcoded_aspect (winW winH srcW srcH : Nat) :
    (srcW * 9 = srcH * 16 → 0 < srcH →
      computeDxDy winW winH = specLetterbox winW winH srcW srcH) ∧
    (0 < srcW → 0 < srcH → srcW * 9 ≠ srcH * 16 →
      computeDxDy srcW srcH ≠ specLetterbox srcW srcH srcW srcH) := by
  constructor
  · intro hratio hpos
    have key : (winH * srcW : ℚ) / (winW * srcH) = (winH * 1920 : ℚ) / (winW * 1080) := by
      rcases Nat.eq_zero_or_pos winW with hw0 | hwpos
      · subst hw0; norm_num
      · have hd1 : ((winW : ℚ) * srcH) ≠ 0 := by positivity
        have hd2 : ((winW : ℚ) * 1080) ≠ 0 := by positivity
        rw [div_eq_div_iff hd1 hd2]
        have hcast : (srcW : ℚ) * 9 = (srcH : ℚ) * 16 := by exact_mod_cast hratio
        linear_combination ((winH : ℚ) * winW * 120) * hcast
    simp only [computeDxDy, specLetterbox, renderRatioQ]
    rw [key]
  · intro hwpos hhpos hne
    have hr1 : ((srcH : ℚ) * srcW) / ((srcW : ℚ) * srcH) = 1 := by
      rw [mul_comm (srcH : ℚ) (srcW : ℚ)]
      exact div_self (by positivity)
    have hrne : renderRatioQ srcW srcH ≠ 1 := by
      unfold renderRatioQ
      intro heq
      have hd : ((srcW : ℚ) * 1080) ≠ 0 := by positivity
      rw [div_eq_one_iff_eq hd] at heq
      have : srcH * 1920 = srcW * 1080 := by exact_mod_cast heq
      omega
    simp only [specLetterbox]
    rw [show ((srcH : ℚ) * srcW) / ((srcW : ℚ) * srcH) = 1 from hr1]
    rw [if_neg (by norm_num), if_neg (by norm_num)]
    simp only [computeDxDy]
    rcases lt_trichotomy (renderRatioQ srcW srcH) 1 with hlt | heq | hgt
    · rw [if_pos hlt]
      intro hEq
      have h1 := congrArg Prod.fst hEq
      simp only at h1
      exact absurd h1 (ne_of_lt hlt)
    · exact absurd heq hrne
    · rw [if_neg (by exact not_lt_of_gt hgt), if_pos hgt]
      intro hEq
      have h2 := congrArg Prod.snd hEq
      simp only at h2
      have hr0 : renderRatioQ srcW srcH ≠ 0 := by
        intro h0; rw [h0] at hgt; norm_num at hgt
      rw [div_eq_one_iff_eq hr0] at h2
      exact hrne h2.symm

/-- Witness for `hardcoded_aspect`: at the 16:9 source 1920×1080 the
code agrees with the spec letterbox for window 800×600; at the
non-16:9 source 1280×1024 the code disagrees with the spec letterbox
at window 1280×1024. -/
theorem hardcoded_aspect_witness :
    computeDxDy 800 600 = specLetterbox 800 600 1920 1080 ∧
    computeDxDy 1280 1024 ≠ specLetterbox 1280 1024 1280 1024 :=
  ⟨(hardcoded_aspect 800 600 1920 1080).1 (by norm_num) (by norm_num),
   (hardcoded_aspect 0 0 1280 1024).2 (by norm_num) (by norm_num) (by norm_num)⟩
